import Mathlib

/-!
# String Analyzer Service — verification of the core logic

Shallow embedding of `src/string_analyzer/main.py` (and the near-identical
`src/string_analyzer/string_utils.py`).  Python strings are modelled as
`List Char` (sequences of Unicode code points, as in CPython); bytes as
`Nat` values below 256; machine words as `Nat` reduced modulo `2^32`.
The handlers' observable outcomes (HTTP status paths) are modelled as
inductive result types.
-/

namespace StringAnalyzer

/-! ## Python string primitives -/

/-- ASCII whitespace, as recognised by Python's `str.split()` / `str.strip()`
(space, tab, newline, carriage return, vertical tab, form feed).  Python also
treats some non-ASCII Unicode spaces as whitespace; those are outside this
model, which is exact on ASCII input. -/
def pyIsSpace (c : Char) : Bool :=
  c = ' ' || c = '\t' || c = '\n' || c = '\x0d' || c = '\x0b' || c = '\x0c'

/-- Partial model of Python's `str.lower()` (full Unicode case mapping).
Exact on ASCII, and on the non-ASCII letters used in this development:
U+212A KELVIN SIGN lowers to `k` and U+0130 LATIN CAPITAL LETTER I WITH DOT
ABOVE lowers to the two code points U+0069 U+0307, per the Unicode case
mappings CPython implements.  Other characters are left unchanged (identity
is the correct mapping for all ASCII non-uppercase characters). -/
def pyLowerChar (c : Char) : List Char :=
  if 'A' ≤ c ∧ c ≤ 'Z' then [Char.ofNat (c.toNat + 32)]
  else if c = Char.ofNat 0x212A then ['k']
  else if c = Char.ofNat 0x130 then [Char.ofNat 0x69, Char.ofNat 0x307]
  else [c]

/-- Python `s.lower()` over a whole string. -/
def pyLower (s : List Char) : List Char :=
  (s.map pyLowerChar).flatten

/-- Python `s.strip()` with no argument: drop leading and trailing
whitespace. -/
def pyStrip (s : List Char) : List Char :=
  (((s.dropWhile pyIsSpace).reverse).dropWhile pyIsSpace).reverse

/-- Does `hay` start with `needle`? -/
def listStartsWith : List Char → List Char → Bool
  | _, [] => true
  | [], _ :: _ => false
  | a :: as, b :: bs => a = b && listStartsWith as bs

/-- Python's substring test `needle in hay` (contiguous substring; the empty
string is a substring of everything). -/
def containsSub (hay needle : List Char) : Bool :=
  match hay with
  | [] => needle = []
  | _ :: t => listStartsWith (hay) needle || containsSub t needle

/-- ASCII decimal digit. -/
def isAsciiDigit (c : Char) : Bool :=
  '0' ≤ c && c ≤ '9'

/-- The character class `[a-zA-Z0-9]` of the palindrome-cleaning regex. -/
def isAsciiAlnum (c : Char) : Bool :=
  ('a' ≤ c && c ≤ 'z') || ('A' ≤ c && c ≤ 'Z') || ('0' ≤ c && c ≤ '9')

/-- Numeric value of a run of ASCII digits (most significant first). -/
def digitsToNat (l : List Char) : Nat :=
  l.foldl (fun a c => a * 10 + (c.toNat - 48)) 0

/-- Helper for `pyInt?`: consume the digits after the first one, allowing a
single underscore between digits as CPython does (`int("1_0") = 10`,
`int("1__0")` and `int("1_")` raise). `acc` is the value read so far. -/
def pyIntDigits : List Char → Nat → Option Nat
  | [], acc => some acc
  | '_' :: c :: rest, acc =>
      if isAsciiDigit c then pyIntDigits rest (acc * 10 + (c.toNat - 48)) else none
  | ['_'], _ => none
  | c :: rest, acc =>
      if isAsciiDigit c then pyIntDigits rest (acc * 10 + (c.toNat - 48)) else none

/-- Model of Python's `int(s)` on a string: optional surrounding whitespace,
optional sign, a non-empty ASCII digit run with optional single underscores
between digits; anything else raises `ValueError`, modelled as `none`.
(CPython also accepts non-ASCII Unicode decimal digits; those are outside
this model.) -/
def pyInt? (s : List Char) : Option Int :=
  match pyStrip s with
  | [] => none
  | '+' :: c :: rest =>
      if isAsciiDigit c then (pyIntDigits rest (c.toNat - 48)).map Int.ofNat else none
  | '-' :: c :: rest =>
      if isAsciiDigit c then (pyIntDigits rest (c.toNat - 48)).map (fun n => -(n : Int))
      else none
  | c :: rest =>
      if isAsciiDigit c then (pyIntDigits rest (c.toNat - 48)).map Int.ofNat else none

/-- Word counter for Python's `len(s.split())`: number of maximal runs of
non-whitespace characters.  The Boolean argument records whether the previous
character was part of a word. -/
def countWordsAux : List Char → Bool → Nat
  | [], _ => 0
  | c :: rest, inWord =>
      if pyIsSpace c then countWordsAux rest false
      else (if inWord then 0 else 1) + countWordsAux rest true

/-- Python `len(s.split())`. -/
def pyWordCount (s : List Char) : Nat :=
  countWordsAux s false

/-! ## SHA-256 (FIPS 180-4), executable over byte lists -/

/-- Truncate to a 32-bit word. -/
def w32 (n : Nat) : Nat := n % 4294967296

/-- Right rotation of a 32-bit word. -/
def rotr (k x : Nat) : Nat :=
  w32 ((x >>> k) ||| (x <<< (32 - k)))

/-- Bitwise complement within 32 bits. -/
def compl32 (x : Nat) : Nat := x ^^^ 4294967295

/-- SHA-256 `Ch` function. -/
def shaCh (x y z : Nat) : Nat := (x &&& y) ^^^ (compl32 x &&& z)

/-- SHA-256 `Maj` function. -/
def shaMaj (x y z : Nat) : Nat := (x &&& y) ^^^ (x &&& z) ^^^ (y &&& z)

/-- SHA-256 big sigma 0. -/
def bigSig0 (x : Nat) : Nat := rotr 2 x ^^^ rotr 13 x ^^^ rotr 22 x

/-- SHA-256 big sigma 1. -/
def bigSig1 (x : Nat) : Nat := rotr 6 x ^^^ rotr 11 x ^^^ rotr 25 x

/-- SHA-256 small sigma 0. -/
def smallSig0 (x : Nat) : Nat := rotr 7 x ^^^ rotr 18 x ^^^ (x >>> 3)

/-- SHA-256 small sigma 1. -/
def smallSig1 (x : Nat) : Nat := rotr 17 x ^^^ rotr 19 x ^^^ (x >>> 10)

/-- The 64 SHA-256 round constants of FIPS 180-4 (the fractional parts of
the cube roots of the first 64 primes), written in decimal: 1116352408 is
0x428a2f98, and so on through 3329325298 = 0xc67178f2. -/
def shaK : List Nat :=
  [1116352408, 1899447441, 3049323471, 3921009573, 961987163,
   1508970993, 2453635748, 2870763221, 3624381080, 310598401,
   607225278, 1426881987, 1925078388, 2162078206, 2614888103,
   3248222580, 3835390401, 4022224774, 264347078, 604807628,
   770255983, 1249150122, 1555081692, 1996064986, 2554220882,
   2821834349, 2952996808, 3210313671, 3336571891, 3584528711,
   113926993, 338241895, 666307205, 773529912, 1294757372,
   1396182291, 1695183700, 1986661051, 2177026350, 2456956037,
   2730485921, 2820302411, 3259730800, 3345764771, 3516065817,
   3600352804, 4094571909, 275423344, 430227734, 506948616,
   659060556, 883997877, 958139571, 1322822218, 1537002063,
   1747873779, 1955562222, 2024104815, 2227730452, 2361852424,
   2428436474, 2756734187, 3204031479, 3329325298]

/-- The eight SHA-256 initial hash words of FIPS 180-4, in decimal:
1779033703 is 0x6a09e667, and so on through 1541459225 = 0x5be0cd19. -/
def shaH0 : List Nat :=
  [1779033703, 3144134277, 1013904242, 2773480762,
   1359893119, 2600822924, 528734635, 1541459225]

/-- Big-endian byte rendering of `n` on `k` bytes. -/
def beBytes : Nat → Nat → List Nat
  | 0, _ => []
  | k + 1, n => beBytes k (n / 256) ++ [n % 256]

/-- SHA-256 padding: append `0x80`, zero bytes to 56 mod 64, then the bit
length on 8 big-endian bytes. -/
def shaPad (m : List Nat) : List Nat :=
  m ++ [0x80] ++ List.replicate ((119 - m.length % 64) % 64) 0 ++ beBytes 8 (8 * m.length)

/-- Group bytes into big-endian 32-bit words (four bytes each). -/
def bytesToWords : List Nat → List Nat
  | b0 :: b1 :: b2 :: b3 :: rest =>
      (((b0 * 256 + b1) * 256 + b2) * 256 + b3) :: bytesToWords rest
  | _ => []

/-- Helper for `chunks64`, structurally recursive on a fuel bound (one unit
of fuel per block suffices since each block consumes at least one byte). -/
def chunks64Aux : Nat → List Nat → List (List Nat)
  | 0, _ => []
  | _, [] => []
  | fuel + 1, x :: xs => (x :: xs.take 63) :: chunks64Aux fuel (xs.drop 63)

/-- Split a byte list into 64-byte blocks. -/
def chunks64 (l : List Nat) : List (List Nat) :=
  chunks64Aux l.length l

/-- One step of the message-schedule extension: append
`σ1(w[n-2]) + w[n-7] + σ0(w[n-15]) + w[n-16]` (mod 2^32). -/
def scheduleStep (acc : List Nat) : List Nat :=
  let n := acc.length
  acc ++ [w32 (smallSig1 (acc.getD (n - 2) 0) + acc.getD (n - 7) 0 +
               smallSig0 (acc.getD (n - 15) 0) + acc.getD (n - 16) 0)]

/-- Iterate a function `n` times. -/
def iterN {α : Type} (f : α → α) : Nat → α → α
  | 0, a => a
  | n + 1, a => iterN f n (f a)

/-- The eight-word working state of the compression function. -/
structure Sha8 where
  a : Nat
  b : Nat
  c : Nat
  d : Nat
  e : Nat
  f : Nat
  g : Nat
  h : Nat
deriving DecidableEq

/-- One compression round; `kw` is the sum `K[t] + W[t]` for the round. -/
def shaRound (st : Sha8) (kw : Nat) : Sha8 :=
  let t1 := w32 (st.h + bigSig1 st.e + shaCh st.e st.f st.g + kw)
  let t2 := w32 (bigSig0 st.a + shaMaj st.a st.b st.c)
  { a := w32 (t1 + t2), b := st.a, c := st.b, d := st.c,
    e := w32 (st.d + t1), f := st.e, g := st.f, h := st.g }

/-- Compress one 64-byte block into the running hash (eight words). -/
def shaCompress (H : List Nat) (block : List Nat) : List Nat :=
  let ws := iterN scheduleStep 48 (bytesToWords block)
  let kws := (List.zip shaK ws).map (fun p => p.1 + p.2)
  let st0 : Sha8 := { a := H.getD 0 0, b := H.getD 1 0, c := H.getD 2 0,
                      d := H.getD 3 0, e := H.getD 4 0, f := H.getD 5 0,
                      g := H.getD 6 0, h := H.getD 7 0 }
  let st := kws.foldl shaRound st0
  [w32 (H.getD 0 0 + st.a), w32 (H.getD 1 0 + st.b), w32 (H.getD 2 0 + st.c),
   w32 (H.getD 3 0 + st.d), w32 (H.getD 4 0 + st.e), w32 (H.getD 5 0 + st.f),
   w32 (H.getD 6 0 + st.g), w32 (H.getD 7 0 + st.h)]

/-- SHA-256 digest (32 bytes) of a byte-list message. -/
def sha256Bytes (m : List Nat) : List Nat :=
  let Hf := (chunks64 (shaPad m)).foldl shaCompress shaH0
  (Hf.map (beBytes 4)).flatten

/-- Lowercase hexadecimal digit for a nibble. -/
def hexDigit (n : Nat) : Char :=
  if n < 10 then Char.ofNat (48 + n) else Char.ofNat (87 + n)

/-- Lowercase hexadecimal rendering of a byte list, as `bytes.hex()` /
`hashlib`'s `hexdigest()` produce. -/
def bytesToHex (bs : List Nat) : List Char :=
  bs.foldr (fun b acc => hexDigit (b / 16 % 16) :: hexDigit (b % 16) :: acc) []

/-- UTF-8 encoding of one code point (Python `str.encode()` default). -/
def utf8Char (c : Char) : List Nat :=
  let n := c.toNat
  if n < 0x80 then [n]
  else if n < 0x800 then [0xc0 + n / 64, 0x80 + n % 64]
  else if n < 0x10000 then [0xe0 + n / 4096, 0x80 + n / 64 % 64, 0x80 + n % 64]
  else [0xf0 + n / 262144, 0x80 + n / 4096 % 64, 0x80 + n / 64 % 64, 0x80 + n % 64]

/-- UTF-8 encoding of a string. -/
def utf8Encode (s : List Char) : List Nat :=
  (s.map utf8Char).flatten

/-- `hashlib.sha256(s.encode()).hexdigest()`: lowercase hex SHA-256 digest of
the UTF-8 encoding. -/
def sha256Hex (s : List Char) : List Char :=
  bytesToHex (sha256Bytes (utf8Encode s))

/-! ## Data model (`StringRecord` rows of the `strings` table) -/

/-- The derived property bundle (`properties` JSON column).  The character
frequency map is a Python dict, modelled as an association list in insertion
order with distinct keys. -/
structure Properties where
  length : Nat
  is_palindrome : Bool
  unique_characters : Nat
  word_count : Nat
  sha256_hash : List Char
  character_frequency_map : List (Char × Nat)
deriving DecidableEq

/-- One stored record, as built by `analyze_string` / `row_to_obj`. -/
structure StringRecord where
  id : List Char
  value : List Char
  properties : Properties
  created_at : List Char
deriving DecidableEq

/-- Python dict update `m[c] = m.get(c, 0) + 1`: bump an existing key in
place (insertion order kept), or append a fresh key with count 1. -/
def bumpChar : List (Char × Nat) → Char → List (Char × Nat)
  | [], c => [(c, 1)]
  | (k, v) :: rest, c =>
      if k = c then (k, v + 1) :: rest else (k, v) :: bumpChar rest c

/-- The `character_frequency_map` loop of `analyze_string`. -/
def charFrequency (s : List Char) : List (Char × Nat) :=
  s.foldl bumpChar []

/-- `analyze_string` from `src/string_analyzer/main.py` (lines 16-43).
`now` is the injected timestamp (`datetime.utcnow().isoformat() + 'Z'`),
the one impure input.  Line 20 lower-cases the input and then strips every
character outside `[a-zA-Z0-9]`; line 21 makes the empty cleaned string a
palindrome (the comparison branch would return the same). -/
def analyze_string (now : List Char) (input_string : List Char) : StringRecord :=
  let length := input_string.length
  let cleaned := (pyLower input_string).filter isAsciiAlnum
  let is_palindrome := if cleaned.isEmpty then true else cleaned == cleaned.reverse
  let unique_characters := input_string.dedup.length
  let word_count := pyWordCount input_string
  let sha256_hash := sha256Hex input_string
  let character_frequency_map := charFrequency input_string
  { id := sha256_hash,
    value := input_string,
    properties :=
      { length := length,
        is_palindrome := is_palindrome,
        unique_characters := unique_characters,
        word_count := word_count,
        sha256_hash := sha256_hash,
        character_frequency_map := character_frequency_map },
    created_at := now }

/-- The palindrome expression of `src/string_analyzer/string_utils.py`
line 11, which omits the explicit empty-string branch of `main.py` line 21:
`cleaned == cleaned[::-1]` over the same cleaned string. -/
def string_utils_palindrome (input_string : List Char) : Bool :=
  let cleaned := (pyLower input_string).filter isAsciiAlnum
  cleaned == cleaned.reverse

/-! ## Structured filter: `GET /strings` (`get_all_strings`, lines 123-179) -/

/-- The request's recognised query parameters, each an optional raw string
(`request.args.get` yields `None` or the text). -/
structure QueryParams where
  is_palindrome : Option (List Char)
  min_length : Option (List Char)
  max_length : Option (List Char)
  word_count : Option (List Char)
  contains_character : Option (List Char)
deriving DecidableEq

/-- Lines 144-147: skip the record when `is_palindrome` is given and the
record's flag differs from `is_palindrome.lower() == 'true'`. -/
def palSkip (ps : QueryParams) (d : StringRecord) : Bool :=
  match ps.is_palindrome with
  | none => false
  | some s => d.properties.is_palindrome != (pyLower s == ['t', 'r', 'u', 'e'])

/-- Lines 149-154: skip when `min_length` is truthy (non-empty), parses as an
integer, and the record is shorter; a `ValueError` from `int()` is caught and
the record is not skipped. -/
def minSkip (ps : QueryParams) (d : StringRecord) : Bool :=
  match ps.min_length with
  | none => false
  | some m =>
      if m.isEmpty then false
      else match pyInt? m with
        | none => false
        | some n => decide ((d.properties.length : Int) < n)

/-- Lines 156-161: the symmetric `max_length` guard. -/
def maxSkip (ps : QueryParams) (d : StringRecord) : Bool :=
  match ps.max_length with
  | none => false
  | some m =>
      if m.isEmpty then false
      else match pyInt? m with
        | none => false
        | some n => decide (n < (d.properties.length : Int))

/-- Lines 163-168: skip when `word_count` parses and differs from the
record's word count. -/
def wcSkip (ps : QueryParams) (d : StringRecord) : Bool :=
  match ps.word_count with
  | none => false
  | some m =>
      if m.isEmpty then false
      else match pyInt? m with
        | none => false
        | some n => decide (¬((d.properties.word_count : Int) = n))

/-- Lines 170-171: skip when `contains_character` is truthy (non-empty) and
is not a (case-sensitive) substring of the record's `value`. -/
def containsSkip (ps : QueryParams) (d : StringRecord) : Bool :=
  match ps.contains_character with
  | none => false
  | some c => if c.isEmpty then false else !containsSub d.value c

/-- The filtering loop of `get_all_strings` (lines 140-173): each guard's
`continue` drops the record, otherwise it is appended. -/
def get_all_strings (ps : QueryParams) : List StringRecord → List StringRecord
  | [] => []
  | d :: rest =>
      if palSkip ps d then get_all_strings ps rest
      else if minSkip ps d then get_all_strings ps rest
      else if maxSkip ps d then get_all_strings ps rest
      else if wcSkip ps d then get_all_strings ps rest
      else if containsSkip ps d then get_all_strings ps rest
      else d :: get_all_strings ps rest

/-- The conjunction the loop implements: kept iff no guard fires. -/
def recordMatches (ps : QueryParams) (d : StringRecord) : Bool :=
  !palSkip ps d && !minSkip ps d && !maxSkip ps d && !wcSkip ps d &&
  !containsSkip ps d

/-! ## Natural-language filter: `GET /strings/filter-by-natural-language`
(`natural_language_filter`, lines 186-262) -/

/-- `\w` of Python's `re` on the ASCII range: letter, digit or underscore. -/
def isWordChar (c : Char) : Bool :=
  isAsciiAlnum c || c = '_'

/-- `re.search` for a literal pattern followed by `(\d+)`: scan positions
left to right, and at the first position where the literal is followed by at
least one digit, return the value of the maximal digit run (as `int()` reads
the capture). -/
def reFindNum (pat : List Char) : List Char → Option Nat
  | [] => none
  | c :: t =>
      if listStartsWith (c :: t) pat then
        let ds := ((c :: t).drop pat.length).takeWhile isAsciiDigit
        if ds.isEmpty then reFindNum pat t else some (digitsToNat ds)
      else reFindNum pat t

/-- `re.search` for a literal pattern followed by `(\w)`: first position
where the literal is followed by a word character, returning that
character. -/
def reFindWchar (pat : List Char) : List Char → Option Char
  | [] => none
  | c :: t =>
      if listStartsWith (c :: t) pat then
        match (c :: t).drop pat.length with
        | d :: _ => if isWordChar d then some d else reFindWchar pat t
        | [] => reFindWchar pat t
      else reFindWchar pat t

/-- The `filters` dict of the natural-language handler: each key is present
(`some`) exactly when its pattern matched. -/
structure NLFilters where
  is_palindrome : Option Bool
  word_count : Option Int
  min_length : Option Int
  max_length : Option Int
  contains_character : Option (List Char)
deriving DecidableEq

/-- Lines 192-213: pattern extraction over the lower-cased, stripped query.
`containing the letter (\w)` is tried before the bare `containing (\w)`. -/
def extractFilters (query : List Char) : NLFilters :=
  { is_palindrome :=
      if containsSub query "palindromic".toList || containsSub query "palindrome".toList
      then some true else none,
    word_count :=
      if containsSub query "single word".toList then some 1 else none,
    min_length :=
      (reFindNum "longer than ".toList query).map (fun n => (n : Int) + 1),
    max_length :=
      (reFindNum "shorter than ".toList query).map (fun n => (n : Int) - 1),
    contains_character :=
      match reFindWchar "containing the letter ".toList query with
      | some c => some [c]
      | none => (reFindWchar "containing ".toList query).map (fun c => [c]) }

/-- Python's `not filters` on the dict: no key was set. -/
def NLFilters.isEmpty (f : NLFilters) : Bool :=
  f.is_palindrome.isNone && f.word_count.isNone && f.min_length.isNone &&
  f.max_length.isNone && f.contains_character.isNone

/-- Line 219: both bounds derived and `min_length > max_length`. -/
def conflictingRange (f : NLFilters) : Bool :=
  match f.min_length, f.max_length with
  | some mn, some mx => decide (mx < mn)
  | _, _ => false

/-- The `match_flag` conjunction of lines 234-250.  `filters.get` truthiness
makes only `some true` constrain `is_palindrome`; the substring test is
case-insensitive on this path. -/
def nlMatch (f : NLFilters) (d : StringRecord) : Bool :=
  (match f.is_palindrome with
   | some true => d.properties.is_palindrome
   | _ => true) &&
  (match f.word_count with
   | some n => decide ((d.properties.word_count : Int) = n)
   | none => true) &&
  (match f.min_length with
   | some n => decide (n ≤ (d.properties.length : Int))
   | none => true) &&
  (match f.max_length with
   | some n => decide ((d.properties.length : Int) ≤ n)
   | none => true) &&
  (match f.contains_character with
   | some c => containsSub (pyLower d.value) (pyLower c)
   | none => true)

/-- Outcome of the natural-language handler: the 400 unparseable path, the
422 conflicting-range path (carrying the parsed filters the response body
surfaces), or the 200 path with its data. -/
inductive NLResponse where
  | unparsed
  | conflict (parsed : NLFilters)
  | ok (parsed : NLFilters) (data : List StringRecord)
deriving DecidableEq

/-- The natural-language handler (lines 186-262) over a decoded `query`
parameter and the enumerated store. -/
def natural_language_filter (queryRaw : List Char) (records : List StringRecord) :
    NLResponse :=
  let query := pyStrip (pyLower queryRaw)
  let filters := extractFilters query
  if filters.isEmpty then NLResponse.unparsed
  else if conflictingRange filters then NLResponse.conflict filters
  else NLResponse.ok filters (records.filter (nlMatch filters))

/-! ## Create: `POST /strings` (`create_string`, lines 72-98) -/

/-- Outcome of a create request with a decoded string value: the 201 path
(carrying the analyzed record) or the 409 duplicate path. -/
inductive CreateResult where
  | created (record : StringRecord)
  | conflict409
deriving DecidableEq

/-- Lines 83-95: analyze, look the `id` up, return 409 untouched on a hit,
otherwise insert.  The store is the `strings` table as a list of rows. -/
def create_string (now : List Char) (v : List Char) (store : List StringRecord) :
    CreateResult × List StringRecord :=
  let result := analyze_string now v
  if store.any (fun r => r.id == result.id) then (CreateResult.conflict409, store)
  else (CreateResult.created result, store ++ [result])

/-- Store states reachable through the API: every row's `id` is the SHA-256
hex of its `value` (the insert at line 91 only ever writes such rows). -/
def WellFormedStore (store : List StringRecord) : Prop :=
  ∀ r ∈ store, r.id = sha256Hex r.value

/-! ## Helper lemmas -/

/-- The structured filter loop is `List.filter` by the guard conjunction. -/
theorem get_all_strings_eq_filter (ps : QueryParams) (l : List StringRecord) :
    get_all_strings ps l = l.filter (recordMatches ps) := by
  induction l with
  | nil => rfl
  | cons d rest ih =>
    simp only [get_all_strings, List.filter_cons, recordMatches]
    by_cases h1 : palSkip ps d = true <;> by_cases h2 : minSkip ps d = true <;>
      by_cases h3 : maxSkip ps d = true <;> by_cases h4 : wcSkip ps d = true <;>
      by_cases h5 : containsSkip ps d = true <;>
      simp [h1, h2, h3, h4, h5, ih, recordMatches]

/-- Key membership after one dict bump: the old keys plus the bumped key. -/
theorem bumpChar_keys_mem (m : List (Char × Nat)) (c x : Char) :
    x ∈ (bumpChar m c).map Prod.fst ↔ x ∈ m.map Prod.fst ∨ x = c := by
  induction m with
  | nil => simp [bumpChar]
  | cons kv t ih =>
    obtain ⟨k, v⟩ := kv
    by_cases hk : k = c
    · subst hk
      simp [bumpChar]
      tauto
    · simp [bumpChar, hk, ih]
      tauto

/-- One dict bump adds exactly one to the total count. -/
theorem bumpChar_sum (m : List (Char × Nat)) (c : Char) :
    ((bumpChar m c).map Prod.snd).sum = (m.map Prod.snd).sum + 1 := by
  induction m with
  | nil => simp [bumpChar]
  | cons kv t ih =>
    obtain ⟨k, v⟩ := kv
    by_cases hk : k = c
    · subst hk
      simp [bumpChar]
      omega
    · simp [bumpChar, hk, ih]
      omega

/-- One dict bump keeps the keys distinct. -/
theorem bumpChar_keys_nodup (m : List (Char × Nat)) (c : Char)
    (h : (m.map Prod.fst).Nodup) : ((bumpChar m c).map Prod.fst).Nodup := by
  induction m with
  | nil => simp [bumpChar]
  | cons kv t ih =>
    obtain ⟨k, v⟩ := kv
    simp only [List.map_cons, List.nodup_cons] at h
    by_cases hk : k = c
    · subst hk
      simpa [bumpChar] using h
    · have hmem : k ∉ (bumpChar t c).map Prod.fst := by
        rw [bumpChar_keys_mem]
        rintro (hin | rfl)
        · exact h.1 hin
        · exact hk rfl
      simp [bumpChar, hk, List.nodup_cons, hmem, ih h.2]

/-- Key membership of the whole frequency fold. -/
theorem charFrequency_fold_mem (s : List Char) (m : List (Char × Nat)) (x : Char) :
    x ∈ ((s.foldl bumpChar m).map Prod.fst) ↔ x ∈ m.map Prod.fst ∨ x ∈ s := by
  induction s generalizing m with
  | nil => simp
  | cons c t ih =>
    simp only [List.foldl_cons, ih, bumpChar_keys_mem, List.mem_cons]
    tauto

/-- Count total of the whole frequency fold. -/
theorem charFrequency_fold_sum (s : List Char) (m : List (Char × Nat)) :
    (((s.foldl bumpChar m).map Prod.snd)).sum = ((m.map Prod.snd)).sum + s.length := by
  induction s generalizing m with
  | nil => simp
  | cons c t ih =>
    simp only [List.foldl_cons, ih, bumpChar_sum, List.length_cons]
    omega

/-- Key distinctness of the whole frequency fold. -/
theorem charFrequency_fold_nodup (s : List Char) (m : List (Char × Nat))
    (h : (m.map Prod.fst).Nodup) : ((s.foldl bumpChar m).map Prod.fst).Nodup := by
  induction s generalizing m with
  | nil => exact h
  | cons c t ih =>
    exact ih _ (bumpChar_keys_nodup _ _ h)

/-- Lowercase hexadecimal alphabet. -/
def isLowerHexDigit (c : Char) : Bool :=
  ('0' ≤ c && c ≤ '9') || ('a' ≤ c && c ≤ 'f')

/-- Every nibble renders to a lowercase hex character. -/
theorem hexDigit_lower : ∀ n : Nat, n < 16 → isLowerHexDigit (hexDigit n) = true := by
  decide

/-- All characters of a hex rendering are lowercase hex digits. -/
theorem bytesToHex_all_lower (bs : List Nat) :
    (bytesToHex bs).all isLowerHexDigit = true := by
  induction bs with
  | nil => rfl
  | cons b t ih =>
    have h1 := hexDigit_lower (b / 16 % 16) (Nat.mod_lt _ (by norm_num))
    have h2 := hexDigit_lower (b % 16) (Nat.mod_lt _ (by norm_num))
    show (hexDigit (b / 16 % 16) :: hexDigit (b % 16) :: bytesToHex t).all
      isLowerHexDigit = true
    rw [List.all_cons, List.all_cons, h1, h2, ih]
    rfl

/-- Known-answer check of the SHA-256 embedding (FIPS 180-4, message
`"abc"`). -/
theorem sha256Hex_vector_abc :
    sha256Hex "abc".toList =
      "ba7816bf8f01cfea414140de5dae2223b00361a396177a9cb410ff61f20015ad".toList := by
  decide

/-- Known-answer check of the SHA-256 embedding (empty message). -/
theorem sha256Hex_vector_empty :
    sha256Hex [] =
      "e3b0c44298fc1c149afbf4c8996fb92427ae41e4649b934ca495991b7852b855".toList := by
  decide

/-- The `string_utils.py` palindrome expression agrees with `main.py`'s:
the explicit empty-string branch is redundant. -/
theorem string_utils_palindrome_agrees (now s : List Char) :
    string_utils_palindrome s = (analyze_string now s).properties.is_palindrome := by
  unfold string_utils_palindrome analyze_string
  cases h : (pyLower s).filter isAsciiAlnum <;> simp [h]

/-! ## Claim theorems -/

/-- C1: for every string `s`, the record produced by `analyze_string`
satisfies `id = properties.sha256_hash`, both equal the SHA-256 digest of
the UTF-8 encoding of `s` rendered as hex, and that rendering is lowercase
hexadecimal throughout. -/
theorem analyze_id_is_sha256_hex (now s : List Char) :
    (analyze_string now s).id = (analyze_string now s).properties.sha256_hash ∧
    (analyze_string now s).id = bytesToHex (sha256Bytes (utf8Encode s)) ∧
    (analyze_string now s).id.all isLowerHexDigit = true :=
  ⟨rfl, rfl, bytesToHex_all_lower (sha256Bytes (utf8Encode s))⟩

/-- The claimed palindrome procedure of C2: strip every character that is
not an ASCII letter or digit FIRST, then lower-case the remainder, and
compare with the reverse (empty cleaned string compares equal, hence
`true`). -/
def stripThenLowerPalindrome (s : List Char) : Bool :=
  let cleaned := pyLower (s.filter isAsciiAlnum)
  cleaned == cleaned.reverse

/-- The input refuting C2: `a` followed by U+212A KELVIN SIGN.  CPython
lower-cases U+212A to `k`, so the code's clean string is `ak`; the claim's
strip-first procedure drops U+212A (not ASCII) before lower-casing and
cleans to `a`. -/
def kelvinInput : List Char := ['a', Char.ofNat 0x212A]

/-- C2 counterexample: on `kelvinInput` the code computes `is_palindrome =
false`, while the claimed strip-then-lowercase procedure yields `true`. -/
theorem palindrome_strip_order_cex :
    (analyze_string [] kelvinInput).properties.is_palindrome = false ∧
    stripThenLowerPalindrome kelvinInput = true := by
  constructor
  · rfl
  · rfl

/-- C2 (amended): `is_palindrome` equals the result of FIRST lower-casing
`s` (Python `str.lower`, full Unicode case mapping), THEN stripping every
character that is not an ASCII letter or digit, and comparing the cleaned
string with its reverse; when the cleaned string is empty the result is
`true`. -/
theorem palindrome_lower_then_strip (now s : List Char) :
    ((analyze_string now s).properties.is_palindrome =
      ((pyLower s).filter isAsciiAlnum == ((pyLower s).filter isAsciiAlnum).reverse)) ∧
    ((pyLower s).filter isAsciiAlnum = [] →
      (analyze_string now s).properties.is_palindrome = true) := by
  constructor
  · show (if ((pyLower s).filter isAsciiAlnum).isEmpty then true
          else (pyLower s).filter isAsciiAlnum == ((pyLower s).filter isAsciiAlnum).reverse) = _
    cases h : (pyLower s).filter isAsciiAlnum <;> simp [h]
  · intro h
    show (if ((pyLower s).filter isAsciiAlnum).isEmpty then true
          else (pyLower s).filter isAsciiAlnum == ((pyLower s).filter isAsciiAlnum).reverse) = true
    rw [h]
    rfl

/-- Witness for the amended C2 at a concrete input whose cleaned string is
empty: `"!?"` is reported as a palindrome. -/
theorem palindrome_lower_then_strip_witness :
    (analyze_string [] ['!', '?']).properties.is_palindrome = true :=
  (palindrome_lower_then_strip [] ['!', '?']).2 (by decide)

/-- C9: the property bundle is a pure function of the value; two runs with
different injected timestamps produce identical properties (`length`,
`is_palindrome`, `unique_characters`, `word_count`, `sha256_hash`,
`character_frequency_map`). -/
theorem analyze_properties_pure (t1 t2 s : List Char) :
    (analyze_string t1 s).properties = (analyze_string t2 s).properties := rfl

/-- C10: the frequency map's keys are exactly the distinct characters of
`s`, their number is `unique_characters`, and the counts sum to `length`. -/
theorem freq_map_consistent (now s : List Char) :
    (∀ c : Char,
      c ∈ (analyze_string now s).properties.character_frequency_map.map Prod.fst ↔
        c ∈ s) ∧
    ((analyze_string now s).properties.character_frequency_map.map Prod.fst).length =
      (analyze_string now s).properties.unique_characters ∧
    ((analyze_string now s).properties.character_frequency_map.map Prod.snd).sum =
      (analyze_string now s).properties.length := by
  have hmem : ∀ c : Char, c ∈ (charFrequency s).map Prod.fst ↔ c ∈ s := by
    intro c
    rw [charFrequency, charFrequency_fold_mem]
    simp
  refine ⟨hmem, ?_, ?_⟩
  · show ((charFrequency s).map Prod.fst).length = s.dedup.length
    have hnd : ((charFrequency s).map Prod.fst).Nodup :=
      charFrequency_fold_nodup s [] (by simp)
    have hfin : ((charFrequency s).map Prod.fst).toFinset = s.dedup.toFinset := by
      ext c
      simp [List.mem_toFinset, List.mem_dedup, hmem c]
    calc ((charFrequency s).map Prod.fst).length
        = ((charFrequency s).map Prod.fst).toFinset.card :=
          (List.toFinset_card_of_nodup hnd).symm
      _ = s.dedup.toFinset.card := by rw [hfin]
      _ = s.dedup.length := List.toFinset_card_of_nodup s.nodup_dedup
  · show ((charFrequency s).map Prod.snd).sum = s.length
    rw [charFrequency, charFrequency_fold_sum]
    simp

/-- Witness for C10 on `"hello"`: five characters, four of them distinct,
and `h` is among the map's keys. -/
theorem freq_map_consistent_witness :
    ((analyze_string [] "hello".toList).properties.character_frequency_map.map
      Prod.fst).length =
      (analyze_string [] "hello".toList).properties.unique_characters ∧
    ((analyze_string [] "hello".toList).properties.character_frequency_map.map
      Prod.snd).sum =
      (analyze_string [] "hello".toList).properties.length ∧
    'h' ∈ (analyze_string [] "hello".toList).properties.character_frequency_map.map
      Prod.fst :=
  ⟨(freq_map_consistent [] "hello".toList).2.1,
   (freq_map_consistent [] "hello".toList).2.2,
   ((freq_map_consistent [] "hello".toList).1 'h').mpr (by decide)⟩

/-- A stored record used by counterexamples and witnesses: the analysis of
`"Apple"`. -/
def appleRec : StringRecord :=
  analyze_string "2024-01-01T00:00:00Z".toList "Apple".toList

/-- All structured-filter parameters absent. -/
def emptyParams : QueryParams := ⟨none, none, none, none, none⟩

/-- C3 counterexample: with `contains_character = "a"` the structured filter
drops the stored record for `"Apple"`, although its value contains `"a"`
case-insensitively — the `in` test at line 170 is case-sensitive. -/
theorem contains_case_insensitive_cex :
    get_all_strings ⟨none, none, none, none, some ['a']⟩ [appleRec] = [] ∧
    containsSub (pyLower appleRec.value) (pyLower ['a']) = true :=
  ⟨rfl, rfl⟩

/-- C3 (amended): for every non-empty `contains_character` value `c`, the
structured filter retains exactly the records whose `value` contains `c` as
a case-sensitive substring. -/
theorem contains_filter_case_sensitive (c : List Char) (hc : c ≠ [])
    (records : List StringRecord) :
    get_all_strings ⟨none, none, none, none, some c⟩ records =
      records.filter (fun d => containsSub d.value c) := by
  rw [get_all_strings_eq_filter]
  apply List.filter_congr
  intro d _
  have hce : c.isEmpty = false := by
    cases c with
    | nil => exact absurd rfl hc
    | cons a t => rfl
  simp [recordMatches, palSkip, minSkip, maxSkip, wcSkip, containsSkip, hce]

/-- Witness for the amended C3: filtering the `"Apple"` record by `"a"`. -/
theorem contains_filter_case_sensitive_witness :
    get_all_strings ⟨none, none, none, none, some ['a']⟩ [appleRec] =
      [appleRec].filter (fun d => containsSub d.value ['a']) :=
  contains_filter_case_sensitive ['a'] (by decide) [appleRec]

/-- C4: a `min_length`, `max_length` or `word_count` parameter whose text
does not parse as an integer never aborts the request; filtering proceeds
exactly as if that parameter were absent. -/
theorem malformed_numeric_param_ignored (ps : QueryParams)
    (records : List StringRecord) (m : List Char) (hm : pyInt? m = none) :
    get_all_strings { ps with min_length := some m } records =
      get_all_strings { ps with min_length := none } records ∧
    get_all_strings { ps with max_length := some m } records =
      get_all_strings { ps with max_length := none } records ∧
    get_all_strings { ps with word_count := some m } records =
      get_all_strings { ps with word_count := none } records := by
  refine ⟨?_, ?_, ?_⟩
  · rw [get_all_strings_eq_filter, get_all_strings_eq_filter]
    apply List.filter_congr
    intro d _
    simp [recordMatches, palSkip, minSkip, maxSkip, wcSkip, containsSkip, hm]
  · rw [get_all_strings_eq_filter, get_all_strings_eq_filter]
    apply List.filter_congr
    intro d _
    simp [recordMatches, palSkip, minSkip, maxSkip, wcSkip, containsSkip, hm]
  · rw [get_all_strings_eq_filter, get_all_strings_eq_filter]
    apply List.filter_congr
    intro d _
    simp [recordMatches, palSkip, minSkip, maxSkip, wcSkip, containsSkip, hm]

/-- Witness for C4 with the malformed text `"abc"`. -/
theorem malformed_numeric_param_ignored_witness :
    get_all_strings { emptyParams with min_length := some "abc".toList } [appleRec] =
      get_all_strings { emptyParams with min_length := none } [appleRec] ∧
    get_all_strings { emptyParams with max_length := some "abc".toList } [appleRec] =
      get_all_strings { emptyParams with max_length := none } [appleRec] ∧
    get_all_strings { emptyParams with word_count := some "abc".toList } [appleRec] =
      get_all_strings { emptyParams with word_count := none } [appleRec] :=
  malformed_numeric_param_ignored emptyParams [appleRec] "abc".toList (by decide)

/-- C5: whenever the lower-cased, trimmed query matches `longer than N`, the
translator derives `min_length = N + 1`; whenever it matches
`shorter than N`, it derives `max_length = N - 1`. -/
theorem nl_range_translation (q : List Char) (n : Nat) :
    (reFindNum "longer than ".toList (pyStrip (pyLower q)) = some n →
      (extractFilters (pyStrip (pyLower q))).min_length = some ((n : Int) + 1)) ∧
    (reFindNum "shorter than ".toList (pyStrip (pyLower q)) = some n →
      (extractFilters (pyStrip (pyLower q))).max_length = some ((n : Int) - 1)) := by
  constructor <;> intro h <;> simp only [extractFilters] <;> rw [h] <;> rfl

/-- Witness for C5: `longer than 5` gives `min_length = 6` and
`shorter than 9` gives `max_length = 8`. -/
theorem nl_range_translation_witness :
    (extractFilters (pyStrip (pyLower
      "Strings LONGER than 5, shorter than 9".toList))).min_length = some 6 ∧
    (extractFilters (pyStrip (pyLower
      "Strings LONGER than 5, shorter than 9".toList))).max_length = some 8 :=
  ⟨(nl_range_translation "Strings LONGER than 5, shorter than 9".toList 5).1
     (by decide),
   (nl_range_translation "Strings LONGER than 5, shorter than 9".toList 9).2
     (by decide)⟩

/-- C6: when the translator derives both bounds with `min_length >
max_length`, the handler takes the 422 conflicting-range path, whose
response carries the parsed (conflicting) filter set; the conflict is never
silently resolved into a 200 result. -/
theorem nl_conflicting_range_reported (q : List Char)
    (records : List StringRecord) (mn mx : Int)
    (hmn : (extractFilters (pyStrip (pyLower q))).min_length = some mn)
    (hmx : (extractFilters (pyStrip (pyLower q))).max_length = some mx)
    (hlt : mx < mn) :
    natural_language_filter q records =
      NLResponse.conflict (extractFilters (pyStrip (pyLower q))) := by
  have h1 : (extractFilters (pyStrip (pyLower q))).isEmpty = false := by
    simp [NLFilters.isEmpty, hmn]
  have h2 : conflictingRange (extractFilters (pyStrip (pyLower q))) = true := by
    simp [conflictingRange, hmn, hmx, hlt]
  simp [natural_language_filter, h1, h2]

/-- Witness for C6: the spec's own example `longer than 10 shorter than 5`
parses to `min_length = 11`, `max_length = 4` and is answered with the
conflict response carrying those filters. -/
theorem nl_conflicting_range_reported_witness :
    natural_language_filter "longer than 10 shorter than 5".toList [] =
      NLResponse.conflict
        (extractFilters (pyStrip (pyLower
          "longer than 10 shorter than 5".toList))) :=
  nl_conflicting_range_reported "longer than 10 shorter than 5".toList [] 11 4
    (by decide) (by decide) (by decide)

/-- C7: in any well-formed store already containing the value `v`, a create
request for `v` answers 409 and returns the store unchanged — the duplicate
check precedes the insert, so nothing is written. -/
theorem duplicate_create_conflict (now v : List Char)
    (store : List StringRecord) (hwf : WellFormedStore store)
    (r : StringRecord) (hr : r ∈ store) (hv : r.value = v) :
    create_string now v store = (CreateResult.conflict409, store) := by
  have hid : (r.id == (analyze_string now v).id) = true := by
    have h1 : r.id = sha256Hex v := by rw [hwf r hr, hv]
    have h2 : (analyze_string now v).id = sha256Hex v := rfl
    rw [h1, h2]
    simp
  have hany : store.any (fun x => x.id == (analyze_string now v).id) = true :=
    List.any_eq_true.mpr ⟨r, hr, hid⟩
  simp [create_string, hany]

/-- A second stored record: the analysis of `"a"`, with some timestamp. -/
def aRec : StringRecord := analyze_string "2024-01-01T00:00:00Z".toList ['a']

/-- Witness for C7: re-creating `"a"` over a store that holds it. -/
theorem duplicate_create_conflict_witness :
    create_string "2024-02-02T00:00:00Z".toList ['a'] [aRec] =
      (CreateResult.conflict409, [aRec]) :=
  duplicate_create_conflict "2024-02-02T00:00:00Z".toList ['a'] [aRec]
    (by
      intro r hr
      rw [List.mem_singleton] at hr
      subst hr
      rfl)
    aRec (List.mem_singleton.mpr rfl) rfl

/-- C8: the structured filter returns exactly the records passing the
conjunction of the guards, in input order (a sublist of the input), and with
no recognized parameter present it returns every record. -/
theorem structured_filter_conjunction (ps : QueryParams)
    (records : List StringRecord) :
    get_all_strings ps records = records.filter (recordMatches ps) ∧
    (get_all_strings ps records).Sublist records ∧
    (ps = emptyParams → get_all_strings ps records = records) := by
  refine ⟨get_all_strings_eq_filter ps records, ?_, ?_⟩
  · rw [get_all_strings_eq_filter]
    exact List.filter_sublist records
  · rintro rfl
    rw [get_all_strings_eq_filter]
    apply List.filter_eq_self.mpr
    intro a _
    rfl

/-- Witness for C8: with no parameters, the `"Apple"` record passes
through. -/
theorem structured_filter_conjunction_witness :
    get_all_strings emptyParams [appleRec] = [appleRec] :=
  (structured_filter_conjunction emptyParams [appleRec]).2.2 rfl

end StringAnalyzer
